import Mathlib

/-!
Verification of the batched MHTML indexing pipeline
(`src/mhtmlBlobIndexer.ts`, class `MhtmlBlobIndexer`).

The pipeline is embedded shallowly: the remote endpoint is abstracted as a
function `env : Nat → FetchOutcome` giving the outcome of the n-th fetch call
of the whole run (calls are numbered globally, so consecutive-timeout state
can be tracked across documents), and the mutable instance state
(`consecutiveTimeouts`, plus a call counter used to express "how many
submission attempts happened") is threaded explicitly as `MState`.
`process.exit(1)` is modelled by the `fatal` constructor, which terminates
every enclosing loop.  Wall-clock delays (`setTimeout` backoff, inter-item
and inter-batch pacing) have no observable effect besides timing and are not
modelled.  The concurrent members of a batch are settled in array order by
`Promise.allSettled`; the model threads them sequentially in that order,
which is the single-threaded cooperative schedule the code runs under.
-/

namespace MhtmlIndexer

/-- Partition tag, the TS union type `'qast' | 'stock'`. -/
inductive Source
  | qast
  | stock
deriving DecidableEq

/-- The TS interface `IndexingResult`. -/
structure IndexingResult where
  success : Bool
  blobName : String
  source : Source
  error : Option String
  statusCode : Option Nat
deriving DecidableEq

/-- Mutable state threaded through a run: `calls` counts fetch calls made so
far (it exists to make "no further submission attempts" provable), `ct` is
the instance field `consecutiveTimeouts`. -/
structure MState where
  calls : Nat
  ct : Nat
deriving DecidableEq

/-- Outcome of one `fetch` call: the promise resolves to an HTTP response,
rejects with an `AbortError` (the timeout fired and aborted the call), or
rejects with some other network/transport error. -/
inductive FetchOutcome
  | response (status : Nat) (body : String)
  | abortError
  | fetchError (msg : String)
deriving DecidableEq

/-- `response.ok` of node-fetch: status in the 2xx range. -/
def responseOk (status : Nat) : Bool :=
  decide (200 ≤ status) && decide (status < 300)

/-- Result of one `indexMhtmlFile` call: either it returned an
`IndexingResult`, or it killed the process (`process.exit(1)`). -/
inductive SubmitOutcome
  | done (r : IndexingResult) (s : MState)
  | fatal (s : MState)
deriving DecidableEq

/-- The result returned after the retry loop exhausts `maxRetries` attempts:
`{ success: false, blobName, source, error: `${maxRetries}回のリトライ後も失敗` }`. -/
def exhaustedResult (maxRetries : Nat) (blobName : String) (src : Source) : IndexingResult :=
  ⟨false, blobName, src, some (toString maxRetries ++ "回のリトライ後も失敗"), none⟩

/-- The retry loop body of `indexMhtmlFile` (lines 83–216).  `remaining` is
the number of loop iterations still allowed (`maxRetries - attempt + 1`);
`maxRetries` is kept separately because the exhaustion message names it.
Per attempt, on the outcome of fetch call number `s.calls`:
* 2xx response: reset `consecutiveTimeouts` to 0, return success with the
  status code;
* non-2xx response: return immediately (no retry) with
  `error = "HTTP <status>: <body>"`, counter untouched;
* `AbortError` (timeout): increment the counter; if it reached
  `MAX_CONSECUTIVE_TIMEOUTS` call `process.exit(1)`, else retry
  (or fall out of the loop when this was the last attempt);
* other fetch error: retry, counter untouched. -/
def submitLoop (env : Nat → FetchOutcome) (maxCT : Nat) (blobName : String)
    (src : Source) (maxRetries : Nat) : Nat → MState → SubmitOutcome
  | 0, s => .done (exhaustedResult maxRetries blobName src) s
  | remaining + 1, s =>
    match env s.calls with
    | .response status body =>
      if responseOk status then
        .done ⟨true, blobName, src, none, some status⟩ ⟨s.calls + 1, 0⟩
      else
        .done ⟨false, blobName, src,
               some ("HTTP " ++ toString status ++ ": " ++ body), some status⟩
          ⟨s.calls + 1, s.ct⟩
    | .abortError =>
      if maxCT ≤ s.ct + 1 then
        .fatal ⟨s.calls + 1, s.ct + 1⟩
      else
        submitLoop env maxCT blobName src maxRetries remaining ⟨s.calls + 1, s.ct + 1⟩
    | .fetchError _ =>
      submitLoop env maxCT blobName src maxRetries remaining ⟨s.calls + 1, s.ct⟩

/-- `MhtmlBlobIndexer.indexMhtmlFile`: run the loop with `attempt` ranging
over `1..maxRetries`, i.e. with `maxRetries` iterations allowed. -/
def indexMhtmlFile (env : Nat → FetchOutcome) (maxCT : Nat) (blobName : String)
    (src : Source) (maxRetries : Nat) (s : MState) : SubmitOutcome :=
  submitLoop env maxCT blobName src maxRetries maxRetries s

/-- Outcomes after which the loop moves on to the next attempt. -/
def retryable : FetchOutcome → Bool
  | .response _ _ => false
  | .abortError => true
  | .fetchError _ => true

/-- Endpoint that always times out. -/
def envTimeout : Nat → FetchOutcome := fun _ => .abortError

/-- Endpoint that times out on the first `k` calls, then answers 200. -/
def envTimeoutK (k : Nat) : Nat → FetchOutcome :=
  fun i => if i < k then .abortError else .response 200 "ok"

/-- Endpoint that always answers with a fixed HTTP response. -/
def envHttp (status : Nat) (body : String) : Nat → FetchOutcome :=
  fun _ => .response status body

/-- Endpoint realising the trace "`n-1` timeouts, one success, `n-1` more
timeouts, then successes". -/
def envTrace (n : Nat) : Nat → FetchOutcome :=
  fun i =>
    if i < n - 1 then .abortError
    else if i = n - 1 then .response 200 "ok"
    else if i < 2 * n - 1 then .abortError
    else .response 200 "ok"

/-- Endpoint alternating timeout (even calls) and HTTP 500 (odd calls). -/
def envAlt : Nat → FetchOutcome :=
  fun i => if i % 2 = 0 then .abortError else .response 500 "err"

/-- `String.endsWith`, taken over the underlying character list (identical on
Unicode code points; the library version is opaque to kernel evaluation). -/
def strEndsWith (s suff : String) : Bool :=
  suff.data.isSuffixOf s.data

/-- One member of a batch (lines 303–337): download the blob and extract a
source URL — any exception there is caught and turned into a failed result
without touching the endpoint or the counter — then call `indexMhtmlFile`.
Download/extraction is abstracted as `dl`, returning the caught message on
failure. -/
def processItem (env : Nat → FetchOutcome) (maxCT : Nat)
    (dl : String → Except String Unit) (src : Source) (maxRetries : Nat)
    (blobName : String) (s : MState) : SubmitOutcome :=
  match dl blobName with
  | .error msg => .done ⟨false, blobName, src, some msg, none⟩ s
  | .ok _ => indexMhtmlFile env maxCT blobName src maxRetries s

/-- Result of processing a batch (or a list of batches): the settled
results in array order, or death of the process mid-way. -/
inductive BatchOutcome
  | done (rs : List IndexingResult) (s : MState)
  | fatal (s : MState)
deriving DecidableEq

/-- Settle the members of one batch, in the array order used by
`Promise.allSettled` (lines 339–354).  `process.exit(1)` inside any member
terminates everything. -/
def processBatch (env : Nat → FetchOutcome) (maxCT : Nat)
    (dl : String → Except String Unit) (src : Source) (maxRetries : Nat) :
    List String → MState → BatchOutcome
  | [], s => .done [] s
  | b :: bs, s =>
    match processItem env maxCT dl src maxRetries b s with
    | .fatal s1 => .fatal s1
    | .done r s1 =>
      match processBatch env maxCT dl src maxRetries bs s1 with
      | .fatal s2 => .fatal s2
      | .done rs s2 => .done (r :: rs) s2

/-- Process the batches strictly in order: batch `N+1` starts from the state
left by batch `N` after all of its members settled (the loop at lines
296–362 awaits `Promise.allSettled` before the next iteration). -/
def processBatches (env : Nat → FetchOutcome) (maxCT : Nat)
    (dl : String → Except String Unit) (src : Source) (maxRetries : Nat) :
    List (List String) → MState → BatchOutcome
  | [], s => .done [] s
  | g :: gs, s =>
    match processBatch env maxCT dl src maxRetries g s with
    | .fatal s1 => .fatal s1
    | .done rs s1 =>
      match processBatches env maxCT dl src maxRetries gs s1 with
      | .fatal s2 => .fatal s2
      | .done rs2 s2 => .done (rs ++ rs2) s2

/-- The slicing loop `for (i = 0; i < n; i += concurrency)
{ batch = allBlobs.slice(i, i + concurrency) }` (line 296–297), written with
explicit fuel: the TS loop terminates only for `concurrency ≥ 1`, and then
`l.length` iterations always suffice. -/
def batchesGo (c : Nat) : Nat → List String → List (List String)
  | 0, _ => []
  | _, [] => []
  | fuel + 1, l => l.take c :: batchesGo c fuel (l.drop c)

/-- Consecutive groups of size `c` (last group possibly smaller). -/
def batches (c : Nat) (l : List String) : List (List String) :=
  batchesGo c l.length l

/-- The aggregate returned by `indexSourceMhtmlFiles`. -/
structure PartitionReport where
  total : Nat
  success : Nat
  failed : Nat
  results : List IndexingResult
deriving DecidableEq

/-- A partition run either returns a report or kills the process. -/
inductive PartitionOutcome
  | report (r : PartitionReport) (s : MState)
  | fatal (s : MState)
deriving DecidableEq

/-- `MhtmlBlobIndexer.indexSourceMhtmlFiles` (lines 229–388), with the blob
listing supplied as `listed` (the Azure enumeration is external I/O; a
listing or connectivity failure throws and returns no report, so it is
outside this function).  Mirrors the source: filter to names ending in
`.mhtml`; if none, return the all-zero report; if `dryRun`, return
`total = count found` with empty results and no fetch call; otherwise
process the consecutive batches of size `concurrency` and aggregate
`total = results.length`, `success`/`failed` by filtering on the flag. -/
def indexSourceMhtmlFiles (env : Nat → FetchOutcome) (maxCT : Nat)
    (dl : String → Except String Unit) (src : Source) (maxRetries : Nat)
    (listed : List String) (concurrency : Nat) (dryRun : Bool) (s : MState) :
    PartitionOutcome :=
  let allBlobs := listed.filter (fun b => strEndsWith b ".mhtml")
  if allBlobs.length = 0 then
    .report ⟨0, 0, 0, []⟩ s
  else if dryRun then
    .report ⟨allBlobs.length, 0, 0, []⟩ s
  else
    match processBatches env maxCT dl src maxRetries (batches concurrency allBlobs) s with
    | .fatal s1 => .fatal s1
    | .done results s1 =>
      .report ⟨results.length,
               (results.filter (fun r => r.success)).length,
               (results.filter (fun r => !r.success)).length,
               results⟩ s1

/-- The TS union `'qast' | 'stock' | 'all'` selecting the partitions of a
coordinator run. -/
inductive Target
  | qast
  | stock
  | all
deriving DecidableEq

/-- The `combined` counters of `indexAllMhtmlFiles`. -/
structure Combined where
  total : Nat
  success : Nat
  failed : Nat
deriving DecidableEq

/-- `combined.total += r.total` etc. (lines 426–428 and 438–440). -/
def addReport (c : Combined) (r : PartitionReport) : Combined :=
  ⟨c.total + r.total, c.success + r.success, c.failed + r.failed⟩

/-- Result of a coordinator run: the per-partition reports actually
populated, the combined counters, and the final state — or process death. -/
inductive RunOutcome
  | done (q : Option PartitionReport) (st : Option PartitionReport)
      (c : Combined) (s : MState)
  | fatal (s : MState)
deriving DecidableEq

/-- `MhtmlBlobIndexer.indexAllMhtmlFiles` (lines 393–462), with the partition
runner abstracted as `run`: `combined` starts at zero; if the target is
`qast` or `all` run the qast partition and add its counters; then if the
target is `stock` or `all` run the stock partition (from the state the qast
run left) and add its counters. -/
def indexAllMhtmlFiles (run : Source → MState → PartitionOutcome) (t : Target)
    (s : MState) : RunOutcome :=
  if t = Target.qast ∨ t = Target.all then
    match run Source.qast s with
    | .fatal s1 => .fatal s1
    | .report rq s1 =>
      if t = Target.stock ∨ t = Target.all then
        match run Source.stock s1 with
        | .fatal s2 => .fatal s2
        | .report rs s2 =>
          .done (some rq) (some rs) (addReport (addReport ⟨0, 0, 0⟩ rq) rs) s2
      else
        .done (some rq) none (addReport ⟨0, 0, 0⟩ rq) s1
  else
    if t = Target.stock ∨ t = Target.all then
      match run Source.stock s with
      | .fatal s1 => .fatal s1
      | .report rs s1 => .done none (some rs) (addReport ⟨0, 0, 0⟩ rs) s1
    else
      .done none none ⟨0, 0, 0⟩ s

/-- A sequence of document submissions sharing the indexer instance (and
hence the consecutive-timeout counter): each document goes through the
download-then-submit path, and `process.exit(1)` aborts the rest.  This is
`processBatch` with a download that always succeeds. -/
def runDocs (env : Nat → FetchOutcome) (maxCT : Nat) (src : Source)
    (maxRetries : Nat) (docs : List String) (s : MState) : BatchOutcome :=
  processBatch env maxCT (fun _ => Except.ok ()) src maxRetries docs s

example : indexMhtmlFile envTimeout 3 "a" Source.qast 5 ⟨0, 0⟩ = .fatal ⟨3, 3⟩ := by decide

example : indexMhtmlFile (envTimeoutK 2) 10 "a" Source.qast 3 ⟨0, 0⟩ =
    .done ⟨true, "a", Source.qast, none, some 200⟩ ⟨3, 0⟩ := by decide

example : indexMhtmlFile (envHttp 404 "nf") 10 "a" Source.qast 3 ⟨0, 0⟩ =
    .done ⟨false, "a", Source.qast, some "HTTP 404: nf", some 404⟩ ⟨1, 0⟩ := by decide

example : indexMhtmlFile envTimeout 10 "a" Source.qast 0 ⟨5, 2⟩ =
    .done (exhaustedResult 0 "a" Source.qast) ⟨5, 2⟩ := by decide

example : batches 2 ["a", "b", "c", "d", "e"] = [["a", "b"], ["c", "d"], ["e"]] := by decide

example : indexSourceMhtmlFiles (envHttp 200 "ok") 10 (fun _ => Except.ok ())
    Source.qast 3 ["a.mhtml", "b.txt", "c.mhtml"] 2 true ⟨0, 0⟩ =
    .report ⟨2, 0, 0, []⟩ ⟨0, 0⟩ := by decide

example : indexSourceMhtmlFiles (envHttp 200 "ok") 10 (fun _ => Except.ok ())
    Source.qast 3 ["a.mhtml", "b.txt", "c.mhtml"] 2 false ⟨0, 0⟩ =
    .report ⟨2, 2, 0, [⟨true, "a.mhtml", Source.qast, none, some 200⟩,
                       ⟨true, "c.mhtml", Source.qast, none, some 200⟩]⟩ ⟨2, 0⟩ := by decide

example : runDocs envAlt 2 Source.qast 2 ["d", "e"] ⟨0, 0⟩ = .fatal ⟨3, 2⟩ := by decide

/-! ### Behaviour of the retry loop -/

/-- If every call the loop can make times out and the counter stays below the
ceiling throughout, the loop runs through all `R` remaining attempts and
returns the exhaustion result, having made exactly `R` calls and pushed the
counter up by `R`. -/
theorem submitLoop_timeout_exhaust (env : Nat → FetchOutcome) (N : Nat) (bn : String)
    (src : Source) (M : Nat) :
    ∀ (R c t : Nat), (∀ i, i < R → env (c + i) = .abortError) → t + R < N →
      submitLoop env N bn src M R ⟨c, t⟩ =
        .done (exhaustedResult M bn src) ⟨c + R, t + R⟩ := by
  intro R
  induction R with
  | zero => intro c t _ _; simp [submitLoop]
  | succ r ih =>
    intro c t henv hlt
    have h0 : env c = .abortError := by simpa using henv 0 (by omega)
    simp only [submitLoop, h0]
    rw [if_neg (by omega : ¬ N ≤ t + 1)]
    rw [show c + (r + 1) = c + 1 + r by omega, show t + (r + 1) = t + 1 + r by omega]
    exact ih (c + 1) (t + 1)
      (fun i hi => by
        have h := henv (i + 1) (by omega)
        rw [show c + 1 + i = c + (i + 1) by omega]
        exact h)
      (by omega)

/-- If the endpoint times out on every call and the ceiling is still `N - t`
increments away but within the remaining attempt budget, the loop dies via
`process.exit(1)` exactly when the counter reaches `N`, after exactly
`N - t` further calls. -/
theorem submitLoop_timeout_fatal (env : Nat → FetchOutcome) (N : Nat) (bn : String)
    (src : Source) (M : Nat) :
    ∀ (R c t : Nat), (∀ i, i < N - t → env (c + i) = .abortError) → t < N → N - t ≤ R →
      submitLoop env N bn src M R ⟨c, t⟩ = .fatal ⟨c + (N - t), N⟩ := by
  intro R
  induction R with
  | zero => intro c t _ h1 h2; omega
  | succ r ih =>
    intro c t henv ht hR
    have h0 : env c = .abortError := by simpa using henv 0 (by omega)
    simp only [submitLoop, h0]
    by_cases htrip : N ≤ t + 1
    · rw [if_pos htrip]
      rw [show N - t = 1 by omega, show t + 1 = N by omega]
    · rw [if_neg htrip]
      rw [show c + (N - t) = c + 1 + (N - (t + 1)) by omega]
      exact ih (c + 1) (t + 1)
        (fun i hi => by
          have h := henv (i + 1) (by omega)
          rw [show c + 1 + i = c + (i + 1) by omega]
          exact h)
        (by omega) (by omega)

/-- If the endpoint times out on the first `k` calls and then answers 2xx,
and neither the ceiling nor the attempt budget is hit first, the loop
returns success after exactly `k + 1` calls and resets the counter to 0. -/
theorem submitLoop_timeouts_then_ok (env : Nat → FetchOutcome) (N : Nat) (bn : String)
    (src : Source) (M : Nat) (code : Nat) (body : String)
    (hcode : responseOk code = true) :
    ∀ (k R c t : Nat), (∀ i, i < k → env (c + i) = .abortError) →
      env (c + k) = .response code body → t + k < N → k < R →
      submitLoop env N bn src M R ⟨c, t⟩ =
        .done ⟨true, bn, src, none, some code⟩ ⟨c + k + 1, 0⟩ := by
  intro k
  induction k with
  | zero =>
    intro R c t _ hok _ hR
    obtain ⟨r, rfl⟩ : ∃ r, R = r + 1 := ⟨R - 1, by omega⟩
    have h0 : env c = .response code body := by simpa using hok
    simp [submitLoop, h0, hcode]
  | succ j ih =>
    intro R c t henv hok hN hR
    obtain ⟨r, rfl⟩ : ∃ r, R = r + 1 := ⟨R - 1, by omega⟩
    have h0 : env c = .abortError := by simpa using henv 0 (by omega)
    simp only [submitLoop, h0]
    rw [if_neg (by omega : ¬ N ≤ t + 1)]
    rw [show c + (j + 1) + 1 = c + 1 + j + 1 by omega]
    exact ih r (c + 1) (t + 1)
      (fun i hi => by
        have h := henv (i + 1) (by omega)
        rw [show c + 1 + i = c + (i + 1) by omega]
        exact h)
      (by rw [show c + 1 + j = c + (j + 1) by omega]; exact hok)
      (by omega) (by omega)

/-- A non-2xx HTTP response ends the loop on the spot: failed result carrying
`"HTTP <status>: <body>"` and the status code, one call made, counter
untouched. -/
theorem submitLoop_http (env : Nat → FetchOutcome) (N : Nat) (bn : String)
    (src : Source) (M R c t : Nat) (code : Nat) (body : String)
    (hcode : responseOk code = false) (h0 : env c = .response code body) :
    submitLoop env N bn src M (R + 1) ⟨c, t⟩ =
      .done ⟨false, bn, src, some ("HTTP " ++ toString code ++ ": " ++ body), some code⟩
        ⟨c + 1, t⟩ := by
  simp [submitLoop, h0, hcode]

/-- A 2xx response ends the loop with a success result and resets the
consecutive-timeout counter to 0, whatever it was. -/
theorem submitLoop_ok (env : Nat → FetchOutcome) (N : Nat) (bn : String)
    (src : Source) (M R c t : Nat) (code : Nat) (body : String)
    (hcode : responseOk code = true) (h0 : env c = .response code body) :
    submitLoop env N bn src M (R + 1) ⟨c, t⟩ =
      .done ⟨true, bn, src, none, some code⟩ ⟨c + 1, 0⟩ := by
  simp [submitLoop, h0, hcode]

/-- If every outcome the loop meets is retryable (timeout or transport
error) and the counter cannot reach the ceiling within the remaining
budget, the loop exhausts all `R` attempts and returns the fixed
exhaustion result, after exactly `R` calls. -/
theorem submitLoop_retryable_exhaust (env : Nat → FetchOutcome) (N : Nat) (bn : String)
    (src : Source) (M : Nat) :
    ∀ (R c t : Nat), (∀ i, i < R → retryable (env (c + i)) = true) → t + R < N →
      ∃ t2, submitLoop env N bn src M R ⟨c, t⟩ =
        .done (exhaustedResult M bn src) ⟨c + R, t2⟩ := by
  intro R
  induction R with
  | zero => intro c t _ _; exact ⟨t, by simp [submitLoop]⟩
  | succ r ih =>
    intro c t henv hN
    have h0 : retryable (env c) = true := by simpa using henv 0 (by omega)
    have hshift : ∀ i, i < r → retryable (env (c + 1 + i)) = true := fun i hi => by
      have h := henv (i + 1) (by omega)
      rw [show c + 1 + i = c + (i + 1) by omega]
      exact h
    cases hcase : env c with
    | response code body => rw [hcase] at h0; simp [retryable] at h0
    | abortError =>
      simp only [submitLoop, hcase]
      rw [if_neg (by omega : ¬ N ≤ t + 1)]
      obtain ⟨t2, h⟩ := ih (c + 1) (t + 1) hshift (by omega)
      exact ⟨t2, by rw [show c + (r + 1) = c + 1 + r by omega]; exact h⟩
    | fetchError msg =>
      simp only [submitLoop, hcase]
      obtain ⟨t2, h⟩ := ih (c + 1) t hshift (by omega)
      exact ⟨t2, by rw [show c + (r + 1) = c + 1 + r by omega]; exact h⟩

/-! ### Behaviour of the batching loop -/

theorem batchesGo_nil (c : Nat) : ∀ fuel, batchesGo c fuel [] = [] := by
  intro fuel; cases fuel <;> rfl

/-- With enough fuel (the list's length suffices once `c ≥ 1`), the groups
concatenate back to the original list: every element lands in exactly one
group, in order. -/
theorem batchesGo_join (c : Nat) (hc : 1 ≤ c) :
    ∀ (fuel : Nat) (l : List String), l.length ≤ fuel →
      (batchesGo c fuel l).flatten = l := by
  intro fuel
  induction fuel with
  | zero =>
    intro l hl
    have : l = [] := List.length_eq_zero.mp (by omega)
    subst this; rfl
  | succ f ih =>
    intro l hl
    cases l with
    | nil => rfl
    | cons a as =>
      simp only [batchesGo, List.flatten_cons]
      rw [ih ((a :: as).drop c) (by simp only [List.length_drop, List.length_cons] at hl ⊢; omega)]
      exact List.take_append_drop c (a :: as)

/-- Every group is nonempty and no larger than `c`. -/
theorem batchesGo_mem (c : Nat) (hc : 1 ≤ c) :
    ∀ (fuel : Nat) (l : List String) (g : List String), g ∈ batchesGo c fuel l →
      g ≠ [] ∧ g.length ≤ c := by
  intro fuel
  induction fuel with
  | zero => intro l g hg; simp [batchesGo] at hg
  | succ f ih =>
    intro l g hg
    cases l with
    | nil => simp [batchesGo] at hg
    | cons a as =>
      simp only [batchesGo, List.mem_cons] at hg
      rcases hg with rfl | hg
      · refine ⟨?_, List.length_take_le c (a :: as)⟩
        obtain ⟨c2, rfl⟩ : ∃ c2, c = c2 + 1 := ⟨c - 1, by omega⟩
        simp [List.take]
      · exact ih _ _ hg

/-- Every group except possibly the last has length exactly `c`. -/
theorem batchesGo_dropLast (c : Nat) (hc : 1 ≤ c) :
    ∀ (fuel : Nat) (l : List String), l.length ≤ fuel →
      ∀ g ∈ (batchesGo c fuel l).dropLast, g.length = c := by
  intro fuel
  induction fuel with
  | zero =>
    intro l hl g hg
    have : l = [] := List.length_eq_zero.mp (by omega)
    subst this; simp [batchesGo] at hg
  | succ f ih =>
    intro l hl g hg
    cases l with
    | nil => simp [batchesGo] at hg
    | cons a as =>
      simp only [batchesGo] at hg
      cases hrest : batchesGo c f ((a :: as).drop c) with
      | nil => rw [hrest] at hg; simp at hg
      | cons r rs =>
        rw [hrest, List.dropLast_cons₂, List.mem_cons] at hg
        rcases hg with rfl | hg
        · have hdrop : (a :: as).drop c ≠ [] := by
            intro hsq; rw [hsq, batchesGo_nil] at hrest; exact List.noConfusion hrest
          have hlen : c < (a :: as).length := by
            by_contra hcon
            exact hdrop (List.drop_eq_nil_of_le (by omega))
          simp only [List.length_take, List.length_cons] at hlen ⊢; omega
        · rw [← hrest] at hg
          exact ih ((a :: as).drop c)
            (by simp only [List.length_drop, List.length_cons] at hl ⊢; omega) g hg

/-- A batch that settles without tripping the breaker yields exactly one
result per member. -/
theorem processBatch_done_length (env : Nat → FetchOutcome) (maxCT : Nat)
    (dl : String → Except String Unit) (src : Source) (M : Nat) :
    ∀ (bs : List String) (s : MState) (rs : List IndexingResult) (s2 : MState),
      processBatch env maxCT dl src M bs s = .done rs s2 → rs.length = bs.length := by
  intro bs
  induction bs with
  | nil =>
    intro s rs s2 h
    simp only [processBatch, BatchOutcome.done.injEq] at h
    rw [← h.1]; rfl
  | cons b bs ih =>
    intro s rs s2 h
    simp only [processBatch] at h
    cases hi : processItem env maxCT dl src M b s with
    | fatal s1 => simp only [hi] at h; exact BatchOutcome.noConfusion h
    | done r s1 =>
      simp only [hi] at h
      cases hb : processBatch env maxCT dl src M bs s1 with
      | fatal s3 => simp only [hb] at h; exact BatchOutcome.noConfusion h
      | done rs3 s3 =>
        simp only [hb, BatchOutcome.done.injEq] at h
        rw [← h.1]
        simp [ih s1 rs3 s3 hb]

/-- A run over a list of groups that settles yields one result per member of
every group. -/
theorem processBatches_done_length (env : Nat → FetchOutcome) (maxCT : Nat)
    (dl : String → Except String Unit) (src : Source) (M : Nat) :
    ∀ (gs : List (List String)) (s : MState) (rs : List IndexingResult) (s2 : MState),
      processBatches env maxCT dl src M gs s = .done rs s2 →
      rs.length = (gs.map List.length).sum := by
  intro gs
  induction gs with
  | nil =>
    intro s rs s2 h
    simp only [processBatches, BatchOutcome.done.injEq] at h
    rw [← h.1]; rfl
  | cons g gs ih =>
    intro s rs s2 h
    simp only [processBatches] at h
    cases hb : processBatch env maxCT dl src M g s with
    | fatal s1 => simp only [hb] at h; exact BatchOutcome.noConfusion h
    | done rs1 s1 =>
      simp only [hb] at h
      cases hr : processBatches env maxCT dl src M gs s1 with
      | fatal s3 => simp only [hr] at h; exact BatchOutcome.noConfusion h
      | done rs3 s3 =>
        simp only [hr, BatchOutcome.done.injEq] at h
        rw [← h.1]
        simp [List.length_append, processBatch_done_length env maxCT dl src M g s rs1 s1 hb,
          ih s1 rs3 s3 hr]

/-- Splitting a list count by a boolean predicate. -/
theorem length_filter_add_length_filter_not {α : Type} (l : List α) (p : α → Bool) :
    (l.filter p).length + (l.filter (fun x => !p x)).length = l.length := by
  induction l with
  | nil => simp
  | cons a l ih =>
    cases h : p a <;> simp [List.filter_cons, h] <;> omega

/-! ### Claims -/

/-- C2: the retry budget counts total attempts.  Against an endpoint that
times out on the first `k` calls and then succeeds (and below the
circuit-breaker ceiling, `k < N`), a submission with budget `r ≥ 1` succeeds
after exactly `k + 1` calls when `r ≥ k + 1`, and when `r < k + 1` it makes
exactly `r` calls and returns a failed result. -/
theorem C2_retry_budget_counts_total_attempts (k r N : Nat) (bn : String) (src : Source)
    (_hr : 1 ≤ r) (hkN : k < N) :
    (k + 1 ≤ r →
      indexMhtmlFile (envTimeoutK k) N bn src r ⟨0, 0⟩ =
        .done ⟨true, bn, src, none, some 200⟩ ⟨k + 1, 0⟩) ∧
    (r < k + 1 →
      indexMhtmlFile (envTimeoutK k) N bn src r ⟨0, 0⟩ =
        .done (exhaustedResult r bn src) ⟨r, r⟩) := by
  constructor
  · intro hkr
    have h := submitLoop_timeouts_then_ok (envTimeoutK k) N bn src r 200 "ok" (by decide)
      k r 0 0
      (fun i hi => by simp [envTimeoutK, hi])
      (by simp [envTimeoutK])
      (by omega) (by omega)
    simpa [indexMhtmlFile] using h
  · intro hrk
    have h := submitLoop_timeout_exhaust (envTimeoutK k) N bn src r r 0 0
      (fun i hi => by
        have hik : i < k := by omega
        simp [envTimeoutK, hik])
      (by omega)
    simpa [indexMhtmlFile] using h

/-- Witness for C2 at `k = 2`, `r = 3`, `N = 10`. -/
theorem C2_witness :
    indexMhtmlFile (envTimeoutK 2) 10 "doc.mhtml" Source.qast 3 ⟨0, 0⟩ =
      .done ⟨true, "doc.mhtml", Source.qast, none, some 200⟩ ⟨3, 0⟩ ∧
    indexMhtmlFile (envTimeoutK 2) 10 "doc.mhtml" Source.qast 2 ⟨0, 0⟩ =
      .done (exhaustedResult 2 "doc.mhtml" Source.qast) ⟨2, 2⟩ :=
  ⟨(C2_retry_budget_counts_total_attempts 2 3 10 "doc.mhtml" Source.qast
      (by decide) (by decide)).1 (by decide),
   (C2_retry_budget_counts_total_attempts 2 2 10 "doc.mhtml" Source.qast
      (by decide) (by decide)).2 (by decide)⟩

/-- C3: against an endpoint that answers with a non-2xx HTTP status, exactly
one attempt is made whatever the retry budget `r ≥ 1`, and the failed result
carries the status code and the response body in its error detail, with the
consecutive-timeout counter untouched. -/
theorem C3_http_failure_not_retried (code : Nat) (body bn : String) (src : Source)
    (r N c t : Nat) (hcode : responseOk code = false) (hr : 1 ≤ r) :
    indexMhtmlFile (envHttp code body) N bn src r ⟨c, t⟩ =
      .done ⟨false, bn, src, some ("HTTP " ++ toString code ++ ": " ++ body), some code⟩
        ⟨c + 1, t⟩ := by
  obtain ⟨R, rfl⟩ : ∃ R, r = R + 1 := ⟨r - 1, by omega⟩
  exact submitLoop_http (envHttp code body) N bn src (R + 1) R c t code body hcode rfl

/-- Witness for C3 at status 503, budget 7. -/
theorem C3_witness :
    indexMhtmlFile (envHttp 503 "busy") 10 "doc.mhtml" Source.stock 7 ⟨0, 0⟩ =
      .done ⟨false, "doc.mhtml", Source.stock, some ("HTTP " ++ toString 503 ++ ": " ++ "busy"),
             some 503⟩ ⟨1, 0⟩ :=
  C3_http_failure_not_retried 503 "busy" "doc.mhtml" Source.stock 7 10 0 0
    (by decide) (by decide)

/-- C10: with retry budget 0 the loop body never runs: no fetch call is made,
the state (including the consecutive-timeout counter) is untouched, and the
returned result is failed with the message reporting failure after 0
retries. -/
theorem C10_zero_retry_budget (env : Nat → FetchOutcome) (N : Nat) (bn : String)
    (src : Source) (s : MState) :
    indexMhtmlFile env N bn src 0 s = .done (exhaustedResult 0 bn src) s ∧
    (exhaustedResult 0 bn src).success = false ∧
    (exhaustedResult 0 bn src).error = some "0回のリトライ後も失敗" ∧
    (exhaustedResult 0 bn src).statusCode = none :=
  ⟨rfl, rfl, by
    simp only [exhaustedResult]
    rw [show (toString (0 : Nat) ++ "回のリトライ後も失敗") = "0回のリトライ後も失敗" by decide],
   rfl⟩

/-- C4 counterexample: after exhausting the budget on transport failures the
error field is the fixed message `"2回のリトライ後も失敗"`, not the last
attempt's error detail (`"ECONNREFUSED"`); indeed the entire returned value
is unchanged when the transport error detail changes. -/
theorem C4_counterexample :
    (∃ r s2,
      indexMhtmlFile (fun _ => .fetchError "ECONNREFUSED") 5 "doc" Source.qast 2 ⟨0, 0⟩ =
        .done r s2 ∧
      r.error = some "2回のリトライ後も失敗" ∧ r.error ≠ some "ECONNREFUSED") ∧
    indexMhtmlFile (fun _ => .fetchError "ECONNREFUSED") 5 "doc" Source.qast 2 ⟨0, 0⟩ =
      indexMhtmlFile (fun _ => .fetchError "other detail") 5 "doc" Source.qast 2 ⟨0, 0⟩ :=
  ⟨⟨exhaustedResult 2 "doc" Source.qast, ⟨2, 0⟩, by decide, by decide, by decide⟩, by decide⟩

/-- C4 (amended): a submission that exhausts its retry budget `M` on
timeout/transport failures (never tripping the breaker) returns a failed
result carrying the partition tag, the document reference, no status code,
and the FIXED error message naming the retry budget — not the detail of the
final failed attempt. -/
theorem C4_exhaustion_result (env : Nat → FetchOutcome) (N : Nat) (bn : String)
    (src : Source) (M : Nat) (s : MState)
    (henv : ∀ i, i < M → retryable (env (s.calls + i)) = true)
    (hN : s.ct + M < N) :
    ∃ t2, indexMhtmlFile env N bn src M s =
        .done (exhaustedResult M bn src) ⟨s.calls + M, t2⟩ ∧
      (exhaustedResult M bn src).success = false ∧
      (exhaustedResult M bn src).error = some (toString M ++ "回のリトライ後も失敗") ∧
      (exhaustedResult M bn src).blobName = bn ∧
      (exhaustedResult M bn src).source = src ∧
      (exhaustedResult M bn src).statusCode = none := by
  obtain ⟨t2, h⟩ := submitLoop_retryable_exhaust env N bn src M M s.calls s.ct henv hN
  exact ⟨t2, h, rfl, rfl, rfl, rfl, rfl⟩

/-- Witness for the amended C4: two timeouts then a transport error exhaust a
budget of 3. -/
theorem C4_witness :
    ∃ t2, indexMhtmlFile (fun i => if i < 2 then .abortError else .fetchError "refused")
        10 "doc" Source.qast 3 ⟨0, 0⟩ =
        .done (exhaustedResult 3 "doc" Source.qast) ⟨3, t2⟩ ∧
      (exhaustedResult 3 "doc" Source.qast).success = false ∧
      (exhaustedResult 3 "doc" Source.qast).error = some (toString 3 ++ "回のリトライ後も失敗") ∧
      (exhaustedResult 3 "doc" Source.qast).blobName = "doc" ∧
      (exhaustedResult 3 "doc" Source.qast).source = Source.qast ∧
      (exhaustedResult 3 "doc" Source.qast).statusCode = none :=
  C4_exhaustion_result (fun i => if i < 2 then .abortError else .fetchError "refused")
    10 "doc" Source.qast 3 ⟨0, 0⟩
    (by intro i hi; interval_cases i <;> decide) (by decide)

/-- Helper for C1(a): processing the leading document against an
always-timeout endpoint already trips the breaker when its budget covers the
ceiling. -/
theorem runDocs_envTimeout_fatal (N : Nat) (hN : 1 ≤ N) (bn : String)
    (ds : List String) (src : Source) (M : Nat) (hM : N ≤ M) :
    runDocs envTimeout N src M (bn :: ds) ⟨0, 0⟩ = .fatal ⟨N, N⟩ := by
  have h := submitLoop_timeout_fatal envTimeout N bn src M M 0 0
    (fun i _ => rfl) (by omega) (by omega)
  simp [runDocs, processBatch, processItem, indexMhtmlFile, h]

/-- Helper for C1(c): against `envTrace N` two documents with budget `2 * N`
both succeed — the first after `N - 1` timeouts, the second after `N - 1`
more — and the breaker never trips. -/
theorem runDocs_envTrace_no_trip (N : Nat) (hN : 1 ≤ N) (d1 d2 : String) (src : Source) :
    runDocs (envTrace N) N src (2 * N) [d1, d2] ⟨0, 0⟩ =
      .done [⟨true, d1, src, none, some 200⟩, ⟨true, d2, src, none, some 200⟩]
        ⟨2 * N, 0⟩ := by
  have h1 := submitLoop_timeouts_then_ok (envTrace N) N d1 src (2 * N) 200 "ok" (by decide)
    (N - 1) (2 * N) 0 0
    (fun i hi => by
      have e : (0 : Nat) + i = i := by omega
      rw [e]; simp [envTrace, hi])
    (by simp [envTrace])
    (by omega) (by omega)
  rw [show (0 : Nat) + (N - 1) + 1 = N by omega] at h1
  have h2 := submitLoop_timeouts_then_ok (envTrace N) N d2 src (2 * N) 200 "ok" (by decide)
    (N - 1) (2 * N) N 0
    (fun i hi => by
      have e1 : ¬ (N + i < N - 1) := by omega
      have e2 : ¬ (N + i = N - 1) := by omega
      have e3 : N + i < 2 * N - 1 := by omega
      simp [envTrace, e1, e2, e3])
    (by
      have e1 : ¬ (N + (N - 1) < N - 1) := by omega
      have e2 : ¬ (N + (N - 1) = N - 1) := by omega
      have e3 : ¬ (N + (N - 1) < 2 * N - 1) := by omega
      simp [envTrace, e1, e2, e3])
    (by omega) (by omega)
  rw [show N + (N - 1) + 1 = 2 * N by omega] at h2
  simp [runDocs, processBatch, processItem, indexMhtmlFile, h1, h2]

/-- C1: the circuit breaker.  (a) With ceiling `N ≥ 1` and an endpoint that
always times out, a run with per-document budget ≥ `N` dies via the fatal
path after exactly `N` fetch calls with the counter at exactly `N`; no
result is produced and no further submission is attempted.  (b) Any 2xx
submission resets the counter to 0.  (c) The trace "`N - 1` timeouts, one
success, `N - 1` more timeouts" never trips the breaker: both documents
succeed and the final counter is 0. -/
theorem C1_circuit_breaker (N : Nat) (hN : 1 ≤ N) :
    (∀ (bn : String) (ds : List String) (src : Source) (M : Nat), N ≤ M →
      runDocs envTimeout N src M (bn :: ds) ⟨0, 0⟩ = .fatal ⟨N, N⟩) ∧
    (∀ (env : Nat → FetchOutcome) (bn : String) (src : Source) (M R : Nat)
        (s : MState) (code : Nat) (body : String),
      env s.calls = .response code body → responseOk code = true →
      submitLoop env N bn src M (R + 1) s =
        .done ⟨true, bn, src, none, some code⟩ ⟨s.calls + 1, 0⟩) ∧
    (∀ (d1 d2 : String) (src : Source),
      runDocs (envTrace N) N src (2 * N) [d1, d2] ⟨0, 0⟩ =
        .done [⟨true, d1, src, none, some 200⟩, ⟨true, d2, src, none, some 200⟩]
          ⟨2 * N, 0⟩) :=
  ⟨fun bn ds src M hM => runDocs_envTimeout_fatal N hN bn ds src M hM,
   fun env bn src M R s code body h hok =>
     submitLoop_ok env N bn src M R s.calls s.ct code body hok h,
   fun d1 d2 src => runDocs_envTrace_no_trip N hN d1 d2 src⟩

/-- Witness for C1 at ceiling 2. -/
theorem C1_witness :
    runDocs envTimeout 2 Source.qast 2 ["a", "b"] ⟨0, 0⟩ = .fatal ⟨2, 2⟩ ∧
    runDocs (envTrace 2) 2 Source.stock 4 ["a", "b"] ⟨0, 0⟩ =
      .done [⟨true, "a", Source.stock, none, some 200⟩,
             ⟨true, "b", Source.stock, none, some 200⟩] ⟨4, 0⟩ := by
  have h := C1_circuit_breaker 2 (by decide)
  refine ⟨h.1 "a" ["b"] Source.qast 2 (by decide), ?_⟩
  have h2 := h.2.2 "a" "b" Source.stock
  simpa using h2

/-- Helper for C9(e): against the endpoint alternating timeout / HTTP 500
with budget 2 per document, each document records one timeout (counter up by
one, preserved across the intervening HTTP failure), and the `n`-th document
trips the breaker when the counter reaches the ceiling. -/
theorem runDocs_envAlt_fatal (src : Source) (N : Nat) :
    ∀ (n j : Nat), 1 ≤ n → j + n = N →
      runDocs envAlt N src 2 (List.replicate n "d") ⟨2 * j, j⟩ =
        .fatal ⟨2 * N - 1, N⟩ := by
  intro n
  induction n with
  | zero => intro j h1 _; omega
  | succ m ih =>
    intro j _ hjN
    have h0 : envAlt (2 * j) = .abortError := by
      simp [envAlt, Nat.mul_mod_right]
    by_cases hm : m = 0
    · subst hm
      have hdoc : indexMhtmlFile envAlt N "d" src 2 ⟨2 * j, j⟩ = .fatal ⟨2 * j + 1, j + 1⟩ := by
        simp only [indexMhtmlFile, submitLoop, h0]
        rw [if_pos (by omega : N ≤ j + 1)]
      simp only [List.replicate_succ, List.replicate_zero, runDocs, processBatch,
        processItem, hdoc]
      rw [show 2 * j + 1 = 2 * N - 1 by omega, show j + 1 = N by omega]
    · have h1 : envAlt (2 * j + 1) = .response 500 "err" := by
        have : (2 * j + 1) % 2 = 1 := by omega
        simp [envAlt, this]
      have hdoc : indexMhtmlFile envAlt N "d" src 2 ⟨2 * j, j⟩ =
          .done ⟨false, "d", src, some ("HTTP " ++ toString 500 ++ ": " ++ "err"), some 500⟩
            ⟨2 * j + 1 + 1, j + 1⟩ := by
        simp only [indexMhtmlFile, submitLoop, h0]
        rw [if_neg (by omega : ¬ N ≤ j + 1)]
        simp only [submitLoop, h1]
        rw [if_neg (by decide : ¬ responseOk 500 = true)]
      simp only [List.replicate_succ, runDocs, processBatch, processItem, hdoc]
      have ih2 := ih (j + 1) (by omega) (by omega)
      simp only [runDocs] at ih2
      rw [show 2 * j + 1 + 1 = 2 * (j + 1) by omega, ih2]

/-- C9: a non-2xx HTTP failure neither increments nor resets the
consecutive-timeout counter; only a timeout increments it, a transport error
leaves it unchanged, and only a 2xx success resets it — so timeouts
separated by HTTP-level failures still count as consecutive: with ceiling
`N ≥ 1` and an endpoint alternating timeout / HTTP 500, `N` documents of
budget 2 trip the breaker at the `N`-th timeout (call `2N - 1`). -/
theorem C9_http_failures_preserve_counter :
    (∀ (env : Nat → FetchOutcome) (N : Nat) (bn : String) (src : Source)
        (M R : Nat) (s : MState) (code : Nat) (body : String),
      env s.calls = .response code body → responseOk code = false →
      submitLoop env N bn src M (R + 1) s =
        .done ⟨false, bn, src, some ("HTTP " ++ toString code ++ ": " ++ body), some code⟩
          ⟨s.calls + 1, s.ct⟩) ∧
    (∀ (env : Nat → FetchOutcome) (N : Nat) (bn : String) (src : Source)
        (M R : Nat) (s : MState),
      env s.calls = .abortError → s.ct + 1 < N →
      submitLoop env N bn src M (R + 1) s =
        submitLoop env N bn src M R ⟨s.calls + 1, s.ct + 1⟩) ∧
    (∀ (env : Nat → FetchOutcome) (N : Nat) (bn : String) (src : Source)
        (M R : Nat) (s : MState) (msg : String),
      env s.calls = .fetchError msg →
      submitLoop env N bn src M (R + 1) s =
        submitLoop env N bn src M R ⟨s.calls + 1, s.ct⟩) ∧
    (∀ (src : Source) (N : Nat), 1 ≤ N →
      runDocs envAlt N src 2 (List.replicate N "d") ⟨0, 0⟩ = .fatal ⟨2 * N - 1, N⟩) := by
  refine ⟨?_, ?_, ?_, ?_⟩
  · intro env N bn src M R s code body h hok
    exact submitLoop_http env N bn src M R s.calls s.ct code body hok h
  · intro env N bn src M R s h hlt
    simp only [submitLoop, h]
    rw [if_neg (by omega : ¬ N ≤ s.ct + 1)]
  · intro env N bn src M R s msg h
    simp only [submitLoop, h]
  · intro src N hN
    have h := runDocs_envAlt_fatal src N N 0 hN (by omega)
    simpa using h

/-- Witness for C9 at ceiling 3: two timeouts separated by HTTP failures,
then the third timeout trips the breaker. -/
theorem C9_witness :
    runDocs envAlt 3 Source.qast 2 (List.replicate 3 "d") ⟨0, 0⟩ = .fatal ⟨5, 3⟩ := by
  have h := C9_http_failures_preserve_counter.2.2.2 Source.qast 3 (by decide)
  simpa using h

/-- C5: every non-dry-run partition report that is returned (rather than the
process dying or the listing throwing) satisfies
`total = success + failed = results.length`. -/
theorem C5_partition_report_invariant (env : Nat → FetchOutcome) (maxCT : Nat)
    (dl : String → Except String Unit) (src : Source) (M : Nat)
    (listed : List String) (concurrency : Nat) (s : MState)
    (r : PartitionReport) (s2 : MState)
    (h : indexSourceMhtmlFiles env maxCT dl src M listed concurrency false s = .report r s2) :
    r.total = r.success + r.failed ∧ r.total = r.results.length := by
  simp only [indexSourceMhtmlFiles] at h
  by_cases hz : (listed.filter (fun b => strEndsWith b ".mhtml")).length = 0
  · rw [if_pos hz] at h
    simp only [PartitionOutcome.report.injEq] at h
    rw [← h.1]
    exact ⟨rfl, rfl⟩
  · rw [if_neg hz] at h
    simp only [Bool.false_eq_true, if_false] at h
    cases hp : processBatches env maxCT dl src M
        (batches concurrency (listed.filter (fun b => strEndsWith b ".mhtml"))) s with
    | fatal s1 => simp only [hp] at h; exact PartitionOutcome.noConfusion h
    | done results s1 =>
      simp only [hp, PartitionOutcome.report.injEq] at h
      rw [← h.1]
      exact ⟨(length_filter_add_length_filter_not results (fun r => r.success)).symm, rfl⟩

/-- Witness for C5: one matching blob submitted successfully. -/
theorem C5_witness :
    ∃ r s2, indexSourceMhtmlFiles (envHttp 200 "ok") 10 (fun _ => Except.ok ())
        Source.qast 3 ["a.mhtml", "b.txt"] 2 false ⟨0, 0⟩ = .report r s2 ∧
      r.total = r.success + r.failed ∧ r.total = r.results.length := by
  have hrun : indexSourceMhtmlFiles (envHttp 200 "ok") 10 (fun _ => Except.ok ())
      Source.qast 3 ["a.mhtml", "b.txt"] 2 false ⟨0, 0⟩ =
      .report ⟨1, 1, 0, [⟨true, "a.mhtml", Source.qast, none, some 200⟩]⟩ ⟨1, 0⟩ := by decide
  exact ⟨_, _, hrun,
    C5_partition_report_invariant (envHttp 200 "ok") 10 (fun _ => Except.ok ())
      Source.qast 3 ["a.mhtml", "b.txt"] 2 ⟨0, 0⟩ _ _ hrun⟩

/-- C6: a dry run over a listing with at least one matching object makes no
submission (the state, in particular the call counter, is returned
untouched) and reports `total` = number of listed names ending in `.mhtml`,
`success = 0`, `failed = 0`, empty results. -/
theorem C6_dry_run_no_submission (env : Nat → FetchOutcome) (maxCT : Nat)
    (dl : String → Except String Unit) (src : Source) (M : Nat)
    (listed : List String) (concurrency : Nat) (s : MState)
    (hne : listed.filter (fun b => strEndsWith b ".mhtml") ≠ []) :
    indexSourceMhtmlFiles env maxCT dl src M listed concurrency true s =
      .report ⟨(listed.filter (fun b => strEndsWith b ".mhtml")).length, 0, 0, []⟩ s := by
  simp only [indexSourceMhtmlFiles]
  rw [if_neg (fun hc => hne (List.length_eq_zero.mp hc))]
  rfl

/-- Witness for C6: three listed names, two matching, dry run. -/
theorem C6_witness :
    indexSourceMhtmlFiles (envHttp 200 "ok") 10 (fun _ => Except.ok ())
      Source.stock 3 ["a.mhtml", "b.txt", "c.mhtml"] 2 true ⟨0, 0⟩ =
      .report ⟨2, 0, 0, []⟩ ⟨0, 0⟩ := by
  have h := C6_dry_run_no_submission (envHttp 200 "ok") 10 (fun _ => Except.ok ())
    Source.stock 3 ["a.mhtml", "b.txt", "c.mhtml"] 2 ⟨0, 0⟩ (by decide)
  rw [h]
  decide

/-- C7: batching.  For `concurrency = c ≥ 1` the listed objects are split
into consecutive groups whose concatenation is the original order, every
group is nonempty with at most `c` members, every group but the last has
exactly `c`; for `c = 2` and 5 objects the group sizes are `[2, 2, 1]`.
Groups are processed strictly in order by `processBatches` (group `N+1`
starts from the state left after group `N` fully settled — by construction
of the sequential fold), and a settled run yields exactly one result per
member of every group. -/
theorem C7_batching (c : Nat) (hc : 1 ≤ c) :
    (∀ l : List String, (batches c l).flatten = l) ∧
    (∀ (l g : List String), g ∈ batches c l → g ≠ [] ∧ g.length ≤ c) ∧
    (∀ l : List String, ∀ g ∈ (batches c l).dropLast, g.length = c) ∧
    ((batches 2 ["a", "b", "c", "d", "e"]).map List.length = [2, 2, 1]) ∧
    (∀ (env : Nat → FetchOutcome) (maxCT : Nat) (dl : String → Except String Unit)
        (src : Source) (M : Nat) (gs : List (List String)) (s : MState)
        (rs : List IndexingResult) (s2 : MState),
      processBatches env maxCT dl src M gs s = .done rs s2 →
      rs.length = (gs.map List.length).sum) :=
  ⟨fun l => batchesGo_join c hc l.length l le_rfl,
   fun l g hg => batchesGo_mem c hc l.length l g hg,
   fun l => batchesGo_dropLast c hc l.length l le_rfl,
   by decide,
   fun env maxCT dl src M gs s rs s2 h =>
     processBatches_done_length env maxCT dl src M gs s rs s2 h⟩

/-- Witness for C7 at `c = 2` and 5 objects. -/
theorem C7_witness :
    (batches 2 ["a", "b", "c", "d", "e"]).flatten = ["a", "b", "c", "d", "e"] ∧
    (batches 2 ["a", "b", "c", "d", "e"]).map List.length = [2, 2, 1] :=
  ⟨(C7_batching 2 (by decide)).1 ["a", "b", "c", "d", "e"],
   (C7_batching 2 (by decide)).2.2.2.1⟩

/-- C8: each combined counter equals the arithmetic sum of the corresponding
counters over exactly the partition reports included in the run: both
partitions for target "all", only the named one otherwise. -/
theorem C8_combined_report_sum (run : Source → MState → PartitionOutcome) (t : Target)
    (s : MState) (q st : Option PartitionReport) (comb : Combined) (s2 : MState)
    (h : indexAllMhtmlFiles run t s = .done q st comb s2) :
    comb.total = (Option.map PartitionReport.total q).getD 0 +
      (Option.map PartitionReport.total st).getD 0 ∧
    comb.success = (Option.map PartitionReport.success q).getD 0 +
      (Option.map PartitionReport.success st).getD 0 ∧
    comb.failed = (Option.map PartitionReport.failed q).getD 0 +
      (Option.map PartitionReport.failed st).getD 0 ∧
    (t = Target.all → q.isSome ∧ st.isSome) ∧
    (t = Target.qast → q.isSome ∧ st = none) ∧
    (t = Target.stock → q = none ∧ st.isSome) := by
  cases t with
  | qast =>
    simp only [indexAllMhtmlFiles] at h
    simp at h
    cases hq : run Source.qast s with
    | fatal s1 => simp only [hq] at h; exact RunOutcome.noConfusion h
    | report rq s1 =>
      simp only [hq, RunOutcome.done.injEq] at h
      obtain ⟨h1, h2, h3, h4⟩ := h
      subst h1; subst h2; subst h3
      simp [addReport]
  | stock =>
    simp only [indexAllMhtmlFiles] at h
    simp at h
    cases hq : run Source.stock s with
    | fatal s1 => simp only [hq] at h; exact RunOutcome.noConfusion h
    | report rs s1 =>
      simp only [hq, RunOutcome.done.injEq] at h
      obtain ⟨h1, h2, h3, h4⟩ := h
      subst h1; subst h2; subst h3
      simp [addReport]
  | all =>
    simp only [indexAllMhtmlFiles] at h
    simp at h
    cases hq : run Source.qast s with
    | fatal s1 => simp only [hq] at h; exact RunOutcome.noConfusion h
    | report rq s1 =>
      simp only [hq] at h
      cases hst : run Source.stock s1 with
      | fatal s3 => simp only [hst] at h; exact RunOutcome.noConfusion h
      | report rs s3 =>
        simp only [hst, RunOutcome.done.injEq] at h
        obtain ⟨h1, h2, h3, h4⟩ := h
        subst h1; subst h2; subst h3
        simp [addReport]

/-- A constant partition runner used to witness the combined-sum theorem. -/
def constRun (r : PartitionReport) : Source → MState → PartitionOutcome :=
  fun _ s => .report r s

/-- Witness for C8: an "all" run over a runner reporting 2/1/1 per
partition. -/
theorem C8_witness :
    ∃ q st comb s2,
      indexAllMhtmlFiles (constRun ⟨2, 1, 1, []⟩) Target.all ⟨0, 0⟩ = .done q st comb s2 ∧
      comb.total = (Option.map PartitionReport.total q).getD 0 +
        (Option.map PartitionReport.total st).getD 0 ∧
      comb.success = (Option.map PartitionReport.success q).getD 0 +
        (Option.map PartitionReport.success st).getD 0 ∧
      comb.failed = (Option.map PartitionReport.failed q).getD 0 +
        (Option.map PartitionReport.failed st).getD 0 ∧
      q.isSome ∧ st.isSome := by
  have hrun : indexAllMhtmlFiles (constRun ⟨2, 1, 1, []⟩) Target.all ⟨0, 0⟩ =
      .done (some ⟨2, 1, 1, []⟩) (some ⟨2, 1, 1, []⟩) ⟨4, 2, 2⟩ ⟨0, 0⟩ := by decide
  have h := C8_combined_report_sum (constRun ⟨2, 1, 1, []⟩) Target.all ⟨0, 0⟩
    (some ⟨2, 1, 1, []⟩) (some ⟨2, 1, 1, []⟩) ⟨4, 2, 2⟩ ⟨0, 0⟩ hrun
  exact ⟨_, _, _, _, hrun, h.1, h.2.1, h.2.2.1, (h.2.2.2.1 rfl).1, (h.2.2.2.1 rfl).2⟩

end MhtmlIndexer
